import Mathlib

/-!
Verification of the helm chart values model of `k8s/upgrade-job/src/helm/chart.rs`.

The Rust code declares serde `Deserialize` structs over YAML documents.  We embed
the documents as a generic key/value tree (`Value`) and each struct's derived
deserializer as an explicit decode function on that tree, following serde
semantics for the attributes that appear in the source:
`#[serde(rename(deserialize = "mayastor"))]` on `UmbrellaValues.core`,
`#[serde(rename_all(deserialize = "camelCase"))]` on `IoEngine` and `Thin`,
and `Option` fields defaulting to `None` when the key is absent.
Accessors are translated method by method.
-/

namespace Helm

/-- Generic semi-structured document node handed to the model by the external
loader: a string leaf or an object of key/value pairs. -/
inductive Value where
  | str : String → Value
  | obj : List (String × Value) → Value

/-- Error model: an undifferentiated schema-decode failure, or the distinguished
`ThinProvisioningOptionsAbsent` error raised by the thin-provisioning accessors
(`crate::common::error::ThinProvisioningOptionsAbsent` in the source). -/
inductive Error where
  | schemaError
  | thinProvisioningOptionsAbsent
deriving DecidableEq

/-- Modelled from the spec: the parsed semantic-version identifier provided by
the external `semver::Version` dependency (not part of src). -/
structure Version where
  major : Nat
  minor : Nat
  patch : Nat
deriving DecidableEq

/-- Modelled from the spec: splits a character list on the dot separator of a
version string. -/
def splitDots : List Char → List (List Char)
  | [] => [[]]
  | c :: rest =>
      let r := splitDots rest
      if c = '.' then [] :: r
      else match r with
        | h :: t => (c :: h) :: t
        | [] => [[c]]

/-- Modelled from the spec: digit-component parser used by the semantic-version
parser; accepts an all-digit character list. -/
def digitsToNat : List Char → Option Nat
  | [] => some 0
  | c :: rest =>
      if c.isDigit then
        (digitsToNat rest).map (fun n => (c.toNat - 48) * 10 ^ rest.length + n)
      else none

/-- Modelled from the spec: component parser accepting a non-empty all-digit
component. -/
def parseNatDigits (cs : List Char) : Option Nat :=
  if cs.isEmpty then none else digitsToNat cs

/-- Modelled from the spec: `Version::deserialize` of the external semver
dependency accepts a syntactically valid `major.minor.patch` semantic version
string and rejects anything else. -/
def Version.parse (s : String) : Option Version :=
  match splitDots s.toList with
  | [a, b, c] => do
      let ma ← parseNatDigits a
      let mb ← parseNatDigits b
      let mc ← parseNatDigits c
      some ⟨ma, mb, mc⟩
  | _ => none

/-- Required-field lookup of the serde map deserializer: a missing key is a
schema error. -/
def reqField (fs : List (String × Value)) (k : String) : Except Error Value :=
  match fs.lookup k with
  | some v => .ok v
  | none => .error .schemaError

/-- Required string-field lookup: a missing key or a non-string value is a
schema error. -/
def getStr (fs : List (String × Value)) (k : String) : Except Error String :=
  match fs.lookup k with
  | some (.str s) => .ok s
  | _ => .error .schemaError

/-- `Chart`: deserialized form of a helm chart's Chart.yaml manifest. -/
structure Chart where
  name : String
  version : Version
deriving DecidableEq

/-- Decode of `Chart`: requires `name` (string) and `version` (string parsed
with `Version::deserialize`). -/
def Chart.decode : Value → Except Error Chart
  | .obj fs => do
      let n ← getStr fs "name"
      let vs ← getStr fs "version"
      match Version.parse vs with
      | some ver => pure ⟨n, ver⟩
      | none => .error .schemaError
  | _ => .error .schemaError

/-- `Thin`: the three thin-provisioning commitment threshold strings.  The
source struct has `rename_all(deserialize = "camelCase")`. -/
structure Thin where
  pool_commitment : String
  volume_commitment : String
  volume_commitment_initial : String
deriving DecidableEq

/-- Decode of `Thin` under camelCase renaming: document keys `poolCommitment`,
`volumeCommitment`, `volumeCommitmentInitial`, all required strings. -/
def Thin.decode : Value → Except Error Thin
  | .obj fs => do
      let pc ← getStr fs "poolCommitment"
      let vc ← getStr fs "volumeCommitment"
      let vci ← getStr fs "volumeCommitmentInitial"
      pure ⟨pc, vc, vci⟩
  | _ => .error .schemaError

/-- `Capacity`: wraps the required `thin` object. -/
structure Capacity where
  thin : Thin
deriving DecidableEq

/-- Decode of `Capacity`: key `thin` required. -/
def Capacity.decode : Value → Except Error Capacity
  | .obj fs => do
      let tv ← reqField fs "thin"
      let t ← Thin.decode tv
      pure ⟨t⟩
  | _ => .error .schemaError

/-- Getter `Capacity::thin_pool_commitment`. -/
def Capacity.thin_pool_commitment (c : Capacity) : String :=
  c.thin.pool_commitment

/-- Getter `Capacity::thin_volume_commitment`. -/
def Capacity.thin_volume_commitment (c : Capacity) : String :=
  c.thin.volume_commitment

/-- Getter `Capacity::thin_volume_commitment_initial`. -/
def Capacity.thin_volume_commitment_initial (c : Capacity) : String :=
  c.thin.volume_commitment_initial

/-- `Core` (the agent group named "core"): holds the optional capacity
subtree, `capacity: Option<Capacity>` in the source. -/
structure Core where
  capacity : Option Capacity
deriving DecidableEq

/-- Decode of `Core`: serde treats an `Option` field as defaulting to `None`
when the key is absent; a present key must decode as `Capacity`. -/
def Core.decode : Value → Except Error Core
  | .obj fs =>
      match fs.lookup "capacity" with
      | some v => do
          let c ← Capacity.decode v
          pure ⟨some c⟩
      | none => pure ⟨none⟩
  | _ => .error .schemaError

/-- Getter `Core::capacity_is_absent`: `self.capacity.is_none()`. -/
def Core.capacity_is_absent (c : Core) : Bool :=
  c.capacity.isNone

/-- Getter `Core::thin_pool_commitment`: errors with
`ThinProvisioningOptionsAbsent` when capacity is absent. -/
def Core.thin_pool_commitment (c : Core) : Except Error String :=
  match c.capacity with
  | some cap => .ok cap.thin_pool_commitment
  | none => .error .thinProvisioningOptionsAbsent

/-- Getter `Core::thin_volume_commitment`: same absence contract. -/
def Core.thin_volume_commitment (c : Core) : Except Error String :=
  match c.capacity with
  | some cap => .ok cap.thin_volume_commitment
  | none => .error .thinProvisioningOptionsAbsent

/-- Getter `Core::thin_volume_commitment_initial`: same absence contract. -/
def Core.thin_volume_commitment_initial (c : Core) : Except Error String :=
  match c.capacity with
  | some cap => .ok cap.thin_volume_commitment_initial
  | none => .error .thinProvisioningOptionsAbsent

/-- `Agents`: holds the agent group named "core". -/
structure Agents where
  core : Core
deriving DecidableEq

/-- Decode of `Agents`: key `core` required. -/
def Agents.decode : Value → Except Error Agents
  | .obj fs => do
      let cv ← reqField fs "core"
      let c ← Core.decode cv
      pure ⟨c⟩
  | _ => .error .schemaError

/-- Forwarder `Agents::core_capacity_is_absent`. -/
def Agents.core_capacity_is_absent (a : Agents) : Bool :=
  a.core.capacity_is_absent

/-- Forwarder `Agents::core_thin_pool_commitment`. -/
def Agents.core_thin_pool_commitment (a : Agents) : Except Error String :=
  a.core.thin_pool_commitment

/-- Forwarder `Agents::core_thin_volume_commitment`. -/
def Agents.core_thin_volume_commitment (a : Agents) : Except Error String :=
  a.core.thin_volume_commitment

/-- Forwarder `Agents::core_thin_volume_commitment_initial`. -/
def Agents.core_thin_volume_commitment_initial (a : Agents) : Except Error String :=
  a.core.thin_volume_commitment_initial

/-- `Image`: container image details, `tag` required. -/
structure Image where
  tag : String
deriving DecidableEq

/-- Decode of `Image`: key `tag` required string. -/
def Image.decode : Value → Except Error Image
  | .obj fs => do
      let t ← getStr fs "tag"
      pure ⟨t⟩
  | _ => .error .schemaError

/-- `IoEngine`: io-engine DaemonSet configuration.  The source struct has
`rename_all(deserialize = "camelCase")`, so the document key for the
`log_level` field is `logLevel`. -/
structure IoEngine where
  log_level : String
deriving DecidableEq

/-- Decode of `IoEngine` under camelCase renaming: document key `logLevel`
required string. -/
def IoEngine.decode : Value → Except Error IoEngine
  | .obj fs => do
      let l ← getStr fs "logLevel"
      pure ⟨l⟩
  | _ => .error .schemaError

/-- `CoreValues`: the Core chart's values.  No rename attribute on this struct,
so serde matches the document keys `image`, `io_engine` and `agents` exactly
as the field names are spelled. -/
structure CoreValues where
  image : Image
  io_engine : IoEngine
  agents : Agents
deriving DecidableEq

/-- Decode of `CoreValues`: keys `image`, `io_engine` and `agents` all
required. -/
def CoreValues.decode : Value → Except Error CoreValues
  | .obj fs => do
      let iv ← reqField fs "image"
      let image ← Image.decode iv
      let ev ← reqField fs "io_engine"
      let ioEng ← IoEngine.decode ev
      let av ← reqField fs "agents"
      let ags ← Agents.decode av
      pure ⟨image, ioEng, ags⟩
  | _ => .error .schemaError

/-- Forwarder `CoreValues::image_tag`. -/
def CoreValues.image_tag (c : CoreValues) : String :=
  c.image.tag

/-- Forwarder `CoreValues::io_engine_log_level`. -/
def CoreValues.io_engine_log_level (c : CoreValues) : String :=
  c.io_engine.log_level

/-- Forwarder `CoreValues::core_capacity_is_absent`. -/
def CoreValues.core_capacity_is_absent (c : CoreValues) : Bool :=
  c.agents.core_capacity_is_absent

/-- Forwarder `CoreValues::core_thin_pool_commitment`. -/
def CoreValues.core_thin_pool_commitment (c : CoreValues) : Except Error String :=
  c.agents.core_thin_pool_commitment

/-- Forwarder `CoreValues::core_thin_volume_commitment`. -/
def CoreValues.core_thin_volume_commitment (c : CoreValues) : Except Error String :=
  c.agents.core_thin_volume_commitment

/-- Forwarder `CoreValues::core_thin_volume_commitment_initial`. -/
def CoreValues.core_thin_volume_commitment_initial (c : CoreValues) : Except Error String :=
  c.agents.core_thin_volume_commitment_initial

/-- `UmbrellaValues`: the Umbrella chart's values.  The source field `core`
carries `#[serde(rename(deserialize = "mayastor"))]`, the Core chart's literal
product name. -/
structure UmbrellaValues where
  core : CoreValues
deriving DecidableEq

/-- Decode of `UmbrellaValues`: the single `CoreValues` is extracted from
underneath the fixed document key `mayastor`. -/
def UmbrellaValues.decode : Value → Except Error UmbrellaValues
  | .obj fs => do
      let cv ← reqField fs "mayastor"
      let c ← CoreValues.decode cv
      pure ⟨c⟩
  | _ => .error .schemaError

/-- Forwarder `UmbrellaValues::image_tag`. -/
def UmbrellaValues.image_tag (u : UmbrellaValues) : String :=
  u.core.image_tag

/-- Forwarder `UmbrellaValues::io_engine_log_level`. -/
def UmbrellaValues.io_engine_log_level (u : UmbrellaValues) : String :=
  u.core.io_engine_log_level

/-- Forwarder `UmbrellaValues::core_capacity_is_absent`. -/
def UmbrellaValues.core_capacity_is_absent (u : UmbrellaValues) : Bool :=
  u.core.core_capacity_is_absent

/-- Forwarder `UmbrellaValues::core_thin_pool_commitment`. -/
def UmbrellaValues.core_thin_pool_commitment (u : UmbrellaValues) : Except Error String :=
  u.core.core_thin_pool_commitment

/-- Forwarder `UmbrellaValues::core_thin_volume_commitment`. -/
def UmbrellaValues.core_thin_volume_commitment (u : UmbrellaValues) : Except Error String :=
  u.core.core_thin_volume_commitment

/-- Forwarder `UmbrellaValues::core_thin_volume_commitment_initial`. -/
def UmbrellaValues.core_thin_volume_commitment_initial (u : UmbrellaValues) : Except Error String :=
  u.core.core_thin_volume_commitment_initial

/-! Helper lemmas about the `Except` bind used by the decoders. -/

lemma exceptBind_ok {α β : Type} (a : α) (f : α → Except Error β) :
    (Except.ok a >>= f) = f a := rfl

lemma exceptBind_err {α β : Type} (e : Error) (f : α → Except Error β) :
    ((Except.error e : Except Error α) >>= f) = Except.error e := rfl

lemma bind_eq_ok {α β : Type} {m : Except Error α} {f : α → Except Error β}
    {b : β} (h : (m >>= f) = .ok b) : ∃ a, m = .ok a ∧ f a = .ok b := by
  cases m with
  | ok a => exact ⟨a, rfl, h⟩
  | error e => rw [exceptBind_err] at h; exact absurd h (by simp)

lemma bind_eq_error {α β : Type} {m : Except Error α} {f : α → Except Error β}
    {e : Error} (h : (m >>= f) = .error e) :
    m = .error e ∨ ∃ a, m = .ok a ∧ f a = .error e := by
  cases m with
  | ok a => exact .inr ⟨a, rfl, h⟩
  | error e2 =>
      rw [exceptBind_err] at h
      injection h with h3
      exact .inl (by rw [h3])

lemma reqField_error_eq {fs : List (String × Value)} {k : String} {e : Error}
    (h : reqField fs k = .error e) : e = .schemaError := by
  unfold reqField at h
  split at h <;> simp_all

lemma reqField_ok_iff {fs : List (String × Value)} {k : String} {v : Value} :
    reqField fs k = .ok v ↔ fs.lookup k = some v := by
  unfold reqField
  cases h : fs.lookup k <;> simp [h]

lemma getStr_error_eq {fs : List (String × Value)} {k : String} {e : Error}
    (h : getStr fs k = .error e) : e = .schemaError := by
  unfold getStr at h
  split at h <;> simp_all

lemma imageDecode_error_eq {v : Value} {e : Error}
    (h : Image.decode v = .error e) : e = .schemaError := by
  cases v with
  | str s => simp only [Image.decode] at h; simp_all
  | obj fs =>
      simp only [Image.decode] at h
      rcases bind_eq_error h with h1 | ⟨a, _, h2⟩
      · exact getStr_error_eq h1
      · simp [pure, Except.pure] at h2

lemma ioEngineDecode_error_eq {v : Value} {e : Error}
    (h : IoEngine.decode v = .error e) : e = .schemaError := by
  cases v with
  | str s => simp only [IoEngine.decode] at h; simp_all
  | obj fs =>
      simp only [IoEngine.decode] at h
      rcases bind_eq_error h with h1 | ⟨a, _, h2⟩
      · exact getStr_error_eq h1
      · simp [pure, Except.pure] at h2

lemma umbrella_decode_error_of_core {fs : List (String × Value)} {v : Value}
    (h1 : fs.lookup "mayastor" = some v)
    (h2 : CoreValues.decode v = .error .schemaError) :
    UmbrellaValues.decode (.obj fs) = .error .schemaError := by
  simp [UmbrellaValues.decode, reqField, h1, exceptBind_ok, h2, exceptBind_err]

lemma coreValues_error_at_image {gs : List (String × Value)}
    (h : (reqField gs "image" >>= fun iv => Image.decode iv) = .error .schemaError) :
    CoreValues.decode (.obj gs) = .error .schemaError := by
  simp only [CoreValues.decode]
  rcases bind_eq_error h with h1 | ⟨iv, h1, h2⟩
  · simp [h1, exceptBind_err]
  · simp [h1, exceptBind_ok, h2, exceptBind_err]

lemma coreValues_error_at_agents {gs : List (String × Value)}
    (h : (reqField gs "agents" >>= fun av => Agents.decode av) = .error .schemaError) :
    CoreValues.decode (.obj gs) = .error .schemaError := by
  simp only [CoreValues.decode]
  cases h1 : reqField gs "image" with
  | error e =>
      have he := reqField_error_eq h1
      subst he
      simp [h1, exceptBind_err]
  | ok iv =>
      simp only [h1, exceptBind_ok]
      cases h2 : Image.decode iv with
      | error e =>
          have he := imageDecode_error_eq h2
          subst he
          simp [h2, exceptBind_err]
      | ok img =>
          simp only [h2, exceptBind_ok]
          cases h3 : reqField gs "io_engine" with
          | error e =>
              have he := reqField_error_eq h3
              subst he
              simp [h3, exceptBind_err]
          | ok ev =>
              simp only [h3, exceptBind_ok]
              cases h4 : IoEngine.decode ev with
              | error e =>
                  have he := ioEngineDecode_error_eq h4
                  subst he
                  simp [h4, exceptBind_err]
              | ok ioEngA =>
                  simp only [h4, exceptBind_ok]
                  rcases bind_eq_error h with h5 | ⟨av, h5, h6⟩
                  · simp [h5, exceptBind_err]
                  · simp [h5, exceptBind_ok, h6, exceptBind_err]

/-! Document-side predicates used to state the claims. -/

/-- Document in which decode finds the `mayastor`, `agents` and `core` objects
but the optional `capacity` key is absent. -/
def CapacityAbsentDoc (d : Value) : Prop :=
  ∃ fs gs hs ks, d = .obj fs ∧
    fs.lookup "mayastor" = some (.obj gs) ∧
    gs.lookup "agents" = some (.obj hs) ∧
    hs.lookup "core" = some (.obj ks) ∧
    ks.lookup "capacity" = none

/-- Document in which `agents.core.capacity.thin` is present with the three
commitment strings `p`, `v`, `vi` under the camelCase document keys. -/
def ThinPresentDoc (d : Value) (p v vi : String) : Prop :=
  ∃ fs gs hs ks cs ts, d = .obj fs ∧
    fs.lookup "mayastor" = some (.obj gs) ∧
    gs.lookup "agents" = some (.obj hs) ∧
    hs.lookup "core" = some (.obj ks) ∧
    ks.lookup "capacity" = some (.obj cs) ∧
    cs.lookup "thin" = some (.obj ts) ∧
    ts.lookup "poolCommitment" = some (.str p) ∧
    ts.lookup "volumeCommitment" = some (.str v) ∧
    ts.lookup "volumeCommitmentInitial" = some (.str vi)

/-- Document whose core-chart object is reachable but in which the required
`image.tag` string is missing (key absent, image not an object, or tag not a
string). -/
def ImageTagMissingDoc (d : Value) : Prop :=
  ∃ fs gs, d = .obj fs ∧
    fs.lookup "mayastor" = some (.obj gs) ∧
    (match gs.lookup "image" with
     | some (.obj hs) => ∀ s, hs.lookup "tag" ≠ some (.str s)
     | some (.str _) => True
     | none => True)

/-- Document whose core-chart object is reachable but in which the `agents`
key is absent. -/
def AgentsMissingDoc (d : Value) : Prop :=
  ∃ fs gs, d = .obj fs ∧
    fs.lookup "mayastor" = some (.obj gs) ∧
    gs.lookup "agents" = none

/-- Document in which `agents` is present as an object but the `core` key
inside it is absent. -/
def AgentsCoreMissingDoc (d : Value) : Prop :=
  ∃ fs gs hs, d = .obj fs ∧
    fs.lookup "mayastor" = some (.obj gs) ∧
    gs.lookup "agents" = some (.obj hs) ∧
    hs.lookup "core" = none

/-- Minimal well-formed umbrella values document: snake_case `io_engine` key,
camelCase `logLevel` leaf, `agents.core` present with no `capacity`. -/
def snakeDoc (tag lvl : String) : Value :=
  .obj [("mayastor", .obj
    [("image", .obj [("tag", .str tag)]),
     ("io_engine", .obj [("logLevel", .str lvl)]),
     ("agents", .obj [("core", .obj [])])])]

/-- Decoded form of `snakeDoc`. -/
def snakeDecoded (tag lvl : String) : UmbrellaValues :=
  ⟨⟨⟨tag⟩, ⟨lvl⟩, ⟨⟨none⟩⟩⟩⟩

/-- Umbrella values document with the full thin-provisioning capacity subtree
present. -/
def thinDoc : Value :=
  .obj [("mayastor", .obj
    [("image", .obj [("tag", .str "v1")]),
     ("io_engine", .obj [("logLevel", .str "info")]),
     ("agents", .obj [("core", .obj [("capacity", .obj [("thin", .obj
        [("poolCommitment", .str "80%"),
         ("volumeCommitment", .str "150%"),
         ("volumeCommitmentInitial", .str "40%")])])])])])]

/-- Decoded form of `thinDoc`. -/
def thinDecoded : UmbrellaValues :=
  ⟨⟨⟨"v1"⟩, ⟨"info"⟩, ⟨⟨some ⟨⟨"80%", "150%", "40%"⟩⟩⟩⟩⟩⟩

/-- Umbrella values document that spells the io-engine key in camelCase
(`ioEngine`) at the object level, as claim C5 describes, instead of the
snake_case `io_engine` that the source schema requires. -/
def camelDoc : Value :=
  .obj [("mayastor", .obj
    [("image", .obj [("tag", .str "v1")]),
     ("ioEngine", .obj [("logLevel", .str "info")]),
     ("agents", .obj [("core", .obj [])])])]

/-- Claim C1: for every values document from which decode succeeds but in
which the `agents.core.capacity` key was absent, `core_capacity_is_absent`
returns true and each of the three thin-provisioning accessors returns a
ThinProvisioningOptionsAbsent error, never a SchemaError. -/
theorem C1_capacity_absent (d : Value) (u : UmbrellaValues)
    (hd : UmbrellaValues.decode d = .ok u) (ha : CapacityAbsentDoc d) :
    u.core_capacity_is_absent = true ∧
    u.core_thin_pool_commitment = .error .thinProvisioningOptionsAbsent ∧
    u.core_thin_volume_commitment = .error .thinProvisioningOptionsAbsent ∧
    u.core_thin_volume_commitment_initial = .error .thinProvisioningOptionsAbsent := by
  obtain ⟨fs, gs, hs, ks, rfl, h1, h2, h3, h4⟩ := ha
  simp only [UmbrellaValues.decode] at hd
  obtain ⟨cv, hcv, hd⟩ := bind_eq_ok hd
  rw [reqField_ok_iff, h1] at hcv
  injection hcv with hcv
  subst hcv
  obtain ⟨c, hc, hu⟩ := bind_eq_ok hd
  simp only [pure, Except.pure, Except.ok.injEq] at hu
  subst hu
  simp only [CoreValues.decode] at hc
  obtain ⟨iv, hiv, hc⟩ := bind_eq_ok hc
  obtain ⟨img, himg, hc⟩ := bind_eq_ok hc
  obtain ⟨ev, hev, hc⟩ := bind_eq_ok hc
  obtain ⟨ioEngA, hioEngA, hc⟩ := bind_eq_ok hc
  obtain ⟨av, hav, hc⟩ := bind_eq_ok hc
  obtain ⟨ags, hags, hc⟩ := bind_eq_ok hc
  simp only [pure, Except.pure, Except.ok.injEq] at hc
  subst hc
  rw [reqField_ok_iff, h2] at hav
  injection hav with hav
  subst hav
  simp only [Agents.decode] at hags
  obtain ⟨cv2, hcv2, hags⟩ := bind_eq_ok hags
  obtain ⟨co, hco, hags⟩ := bind_eq_ok hags
  simp only [pure, Except.pure, Except.ok.injEq] at hags
  subst hags
  rw [reqField_ok_iff, h3] at hcv2
  injection hcv2 with hcv2
  subst hcv2
  simp only [Core.decode, h4, pure, Except.pure, Except.ok.injEq] at hco
  subst hco
  simp [UmbrellaValues.core_capacity_is_absent, CoreValues.core_capacity_is_absent,
    Agents.core_capacity_is_absent, Core.capacity_is_absent,
    UmbrellaValues.core_thin_pool_commitment, CoreValues.core_thin_pool_commitment,
    Agents.core_thin_pool_commitment, Core.thin_pool_commitment,
    UmbrellaValues.core_thin_volume_commitment, CoreValues.core_thin_volume_commitment,
    Agents.core_thin_volume_commitment, Core.thin_volume_commitment,
    UmbrellaValues.core_thin_volume_commitment_initial,
    CoreValues.core_thin_volume_commitment_initial,
    Agents.core_thin_volume_commitment_initial, Core.thin_volume_commitment_initial]

/-- Witness for C1 at the concrete document `snakeDoc "v1" "info"`, whose
`agents.core` object carries no `capacity` key. -/
theorem C1_capacity_absent_witness :
    (snakeDecoded "v1" "info").core_capacity_is_absent = true ∧
    (snakeDecoded "v1" "info").core_thin_pool_commitment =
      .error .thinProvisioningOptionsAbsent ∧
    (snakeDecoded "v1" "info").core_thin_volume_commitment =
      .error .thinProvisioningOptionsAbsent ∧
    (snakeDecoded "v1" "info").core_thin_volume_commitment_initial =
      .error .thinProvisioningOptionsAbsent :=
  C1_capacity_absent (snakeDoc "v1" "info") (snakeDecoded "v1" "info") rfl
    ⟨_, _, _, _, rfl, rfl, rfl, rfl, rfl⟩

/-- Claim C2: for every values document in which `agents.core.capacity` is
present with all three thin-provisioning string fields set, decode succeeds
with `core_capacity_is_absent` false and the three accessors return exactly
the three source strings unchanged. -/
theorem C2_thin_present (d : Value) (u : UmbrellaValues) (p v vi : String)
    (hd : UmbrellaValues.decode d = .ok u) (hp : ThinPresentDoc d p v vi) :
    u.core_capacity_is_absent = false ∧
    u.core_thin_pool_commitment = .ok p ∧
    u.core_thin_volume_commitment = .ok v ∧
    u.core_thin_volume_commitment_initial = .ok vi := by
  obtain ⟨fs, gs, hs, ks, cs, ts, rfl, h1, h2, h3, h4, h5, h6, h7, h8⟩ := hp
  simp only [UmbrellaValues.decode] at hd
  obtain ⟨cv, hcv, hd⟩ := bind_eq_ok hd
  rw [reqField_ok_iff, h1] at hcv
  injection hcv with hcv
  subst hcv
  obtain ⟨c, hc, hu⟩ := bind_eq_ok hd
  simp only [pure, Except.pure, Except.ok.injEq] at hu
  subst hu
  simp only [CoreValues.decode] at hc
  obtain ⟨iv, hiv, hc⟩ := bind_eq_ok hc
  obtain ⟨img, himg, hc⟩ := bind_eq_ok hc
  obtain ⟨ev, hev, hc⟩ := bind_eq_ok hc
  obtain ⟨ioEngA, hioEngA, hc⟩ := bind_eq_ok hc
  obtain ⟨av, hav, hc⟩ := bind_eq_ok hc
  obtain ⟨ags, hags, hc⟩ := bind_eq_ok hc
  simp only [pure, Except.pure, Except.ok.injEq] at hc
  subst hc
  rw [reqField_ok_iff, h2] at hav
  injection hav with hav
  subst hav
  simp only [Agents.decode] at hags
  obtain ⟨cv2, hcv2, hags⟩ := bind_eq_ok hags
  obtain ⟨co, hco, hags⟩ := bind_eq_ok hags
  simp only [pure, Except.pure, Except.ok.injEq] at hags
  subst hags
  rw [reqField_ok_iff, h3] at hcv2
  injection hcv2 with hcv2
  subst hcv2
  simp only [Core.decode, h4] at hco
  obtain ⟨cap, hcap, hco⟩ := bind_eq_ok hco
  simp only [pure, Except.pure, Except.ok.injEq] at hco
  subst hco
  simp only [Capacity.decode] at hcap
  obtain ⟨tv, htv, hcap⟩ := bind_eq_ok hcap
  obtain ⟨t, ht, hcap⟩ := bind_eq_ok hcap
  simp only [pure, Except.pure, Except.ok.injEq] at hcap
  subst hcap
  rw [reqField_ok_iff, h5] at htv
  injection htv with htv
  subst htv
  simp only [Thin.decode] at ht
  obtain ⟨pc, hpc, ht⟩ := bind_eq_ok ht
  obtain ⟨vc, hvc, ht⟩ := bind_eq_ok ht
  obtain ⟨vci, hvci, ht⟩ := bind_eq_ok ht
  simp only [pure, Except.pure, Except.ok.injEq] at ht
  subst ht
  simp only [getStr, h6, Except.ok.injEq] at hpc
  simp only [getStr, h7, Except.ok.injEq] at hvc
  simp only [getStr, h8, Except.ok.injEq] at hvci
  subst hpc
  subst hvc
  subst hvci
  simp [UmbrellaValues.core_capacity_is_absent, CoreValues.core_capacity_is_absent,
    Agents.core_capacity_is_absent, Core.capacity_is_absent,
    UmbrellaValues.core_thin_pool_commitment, CoreValues.core_thin_pool_commitment,
    Agents.core_thin_pool_commitment, Core.thin_pool_commitment,
    UmbrellaValues.core_thin_volume_commitment, CoreValues.core_thin_volume_commitment,
    Agents.core_thin_volume_commitment, Core.thin_volume_commitment,
    UmbrellaValues.core_thin_volume_commitment_initial,
    CoreValues.core_thin_volume_commitment_initial,
    Agents.core_thin_volume_commitment_initial, Core.thin_volume_commitment_initial,
    Capacity.thin_pool_commitment, Capacity.thin_volume_commitment,
    Capacity.thin_volume_commitment_initial]

/-- Witness for C2 at the concrete document `thinDoc`, whose capacity subtree
carries the strings "80%", "150%" and "40%". -/
theorem C2_thin_present_witness :
    thinDecoded.core_capacity_is_absent = false ∧
    thinDecoded.core_thin_pool_commitment = .ok "80%" ∧
    thinDecoded.core_thin_volume_commitment = .ok "150%" ∧
    thinDecoded.core_thin_volume_commitment_initial = .ok "40%" :=
  C2_thin_present thinDoc thinDecoded "80%" "150%" "40%" rfl
    ⟨_, _, _, _, _, _, rfl, rfl, rfl, rfl, rfl, rfl, rfl, rfl, rfl⟩

/-- Claim C4: decoding an UmbrellaValues document extracts the single
CoreValues from underneath the fixed product-specific key `mayastor` (the
sub-chart product name, not the generic word "core"), and the decode fails
with a SchemaError for every document in which that key is missing. -/
theorem C4_umbrella_key (fs : List (String × Value)) :
    (fs.lookup "mayastor" = none →
      UmbrellaValues.decode (.obj fs) = .error .schemaError) ∧
    (∀ v, fs.lookup "mayastor" = some v →
      UmbrellaValues.decode (.obj fs) = (CoreValues.decode v).map UmbrellaValues.mk) := by
  constructor
  · intro h
    simp [UmbrellaValues.decode, reqField, h, exceptBind_err]
  · intro v h
    simp only [UmbrellaValues.decode, reqField, h]
    cases hc : CoreValues.decode v <;>
      simp [hc, exceptBind_ok, exceptBind_err, Except.map, pure, Except.pure]

/-- Witness for C4 at concrete documents: an empty document (no `mayastor`
key) fails, and a document with a `mayastor` key decodes as the inner
CoreValues decode. -/
theorem C4_umbrella_key_witness :
    UmbrellaValues.decode (.obj []) = .error .schemaError ∧
    UmbrellaValues.decode (.obj [("mayastor", Value.str "x")]) =
      (CoreValues.decode (Value.str "x")).map UmbrellaValues.mk :=
  ⟨(C4_umbrella_key []).1 rfl, (C4_umbrella_key _).2 _ rfl⟩

/-- Claim C5 counterexample: a document that uses the camelCase key
`ioEngine.logLevel` under the product key, as the claim describes, does not
decode successfully — it fails with a SchemaError, because the `CoreValues`
struct carries no rename attribute, so the document key must be the
snake_case `io_engine`. -/
theorem C5_camel_counterexample :
    UmbrellaValues.decode camelDoc = .error .schemaError := rfl

/-- Claim C5 (amended): only the log-level leaf key is camelCase (`logLevel`);
the io-engine object key itself is snake_case (`io_engine`).  A document with
nested keys `io_engine.logLevel` under the product key decodes successfully,
and `io_engine_log_level()` returns that string. -/
theorem C5_log_level (tag lvl : String) :
    UmbrellaValues.decode (snakeDoc tag lvl) = .ok (snakeDecoded tag lvl) ∧
    (snakeDecoded tag lvl).io_engine_log_level = lvl :=
  ⟨rfl, rfl⟩

/-- Claim C6: a manifest document with a name string and a syntactically valid
semantic-version string decodes to a Chart whose `name()` is the name string
and whose `version()` is the parsed version; a document whose version string
is not a valid semantic version fails to decode with a SchemaError. -/
theorem C6_chart_metadata :
    (∀ (fs : List (String × Value)) (n vs : String) (ver : Version),
      fs.lookup "name" = some (.str n) →
      fs.lookup "version" = some (.str vs) →
      Version.parse vs = some ver →
      ∃ c, Chart.decode (.obj fs) = .ok c ∧ c.name = n ∧ c.version = ver) ∧
    (∀ (fs : List (String × Value)) (vs : String),
      fs.lookup "version" = some (.str vs) →
      Version.parse vs = none →
      Chart.decode (.obj fs) = .error .schemaError) := by
  constructor
  · intro fs n vs ver h1 h2 h3
    refine ⟨⟨n, ver⟩, ?_, rfl, rfl⟩
    simp [Chart.decode, getStr, h1, h2, h3, exceptBind_ok, pure, Except.pure]
  · intro fs vs h2 h3
    cases h1 : fs.lookup "name" with
    | none => simp [Chart.decode, getStr, h1, exceptBind_err]
    | some v =>
        cases v with
        | str n => simp [Chart.decode, getStr, h1, h2, h3, exceptBind_ok, exceptBind_err]
        | obj gs => simp [Chart.decode, getStr, h1, exceptBind_err]

/-- Witness for C6: the manifest `name="n"`, `version="1.2.3"` decodes with
the expected accessors, and `version="not-a-version"` fails with a
SchemaError. -/
theorem C6_chart_metadata_witness :
    (∃ c, Chart.decode (.obj [("name", Value.str "n"), ("version", Value.str "1.2.3")]) = .ok c ∧
      c.name = "n" ∧ c.version = ⟨1, 2, 3⟩) ∧
    Chart.decode (.obj [("name", Value.str "n"), ("version", Value.str "not-a-version")]) =
      .error .schemaError :=
  ⟨C6_chart_metadata.1 _ "n" "1.2.3" ⟨1, 2, 3⟩ rfl rfl rfl,
   C6_chart_metadata.2 _ "not-a-version" rfl rfl⟩

/-- Claim C7: the three thin-provisioning accessors agree on presence — when
capacity is absent all three fail with the same ThinProvisioningOptionsAbsent
error, and when capacity is present all three succeed, regardless of which is
invoked first. -/
theorem C7_presence_agreement (c : Core) :
    (c.capacity_is_absent = true →
      c.thin_pool_commitment = .error .thinProvisioningOptionsAbsent ∧
      c.thin_volume_commitment = .error .thinProvisioningOptionsAbsent ∧
      c.thin_volume_commitment_initial = .error .thinProvisioningOptionsAbsent) ∧
    (c.capacity_is_absent = false →
      ∃ cap, c.capacity = some cap ∧
        c.thin_pool_commitment = .ok cap.thin_pool_commitment ∧
        c.thin_volume_commitment = .ok cap.thin_volume_commitment ∧
        c.thin_volume_commitment_initial = .ok cap.thin_volume_commitment_initial) := by
  obtain ⟨cap?⟩ := c
  cases cap? with
  | none =>
      simp [Core.capacity_is_absent, Core.thin_pool_commitment,
        Core.thin_volume_commitment, Core.thin_volume_commitment_initial]
  | some cap =>
      simp [Core.capacity_is_absent, Core.thin_pool_commitment,
        Core.thin_volume_commitment, Core.thin_volume_commitment_initial]

/-- Witness for C7 at one absent and one present capacity value. -/
theorem C7_presence_agreement_witness :
    ((Core.mk none).thin_pool_commitment = .error .thinProvisioningOptionsAbsent ∧
     (Core.mk none).thin_volume_commitment = .error .thinProvisioningOptionsAbsent ∧
     (Core.mk none).thin_volume_commitment_initial = .error .thinProvisioningOptionsAbsent) ∧
    (∃ cap, (Core.mk (some ⟨⟨"80%", "150%", "40%"⟩⟩)).capacity = some cap ∧
      (Core.mk (some ⟨⟨"80%", "150%", "40%"⟩⟩)).thin_pool_commitment = .ok cap.thin_pool_commitment ∧
      (Core.mk (some ⟨⟨"80%", "150%", "40%"⟩⟩)).thin_volume_commitment = .ok cap.thin_volume_commitment ∧
      (Core.mk (some ⟨⟨"80%", "150%", "40%"⟩⟩)).thin_volume_commitment_initial = .ok cap.thin_volume_commitment_initial) :=
  ⟨(C7_presence_agreement ⟨none⟩).1 rfl,
   (C7_presence_agreement ⟨some ⟨⟨"80%", "150%", "40%"⟩⟩⟩).2 rfl⟩

/-- Claim C8: every forwarding accessor on UmbrellaValues returns exactly the
result of the corresponding accessor on its inner CoreValues, which in turn
returns exactly the result of the corresponding leaf accessor — pure
delegation with no added logic at either level. -/
theorem C8_forwarding (u : UmbrellaValues) :
    (u.image_tag = u.core.image_tag ∧ u.core.image_tag = u.core.image.tag) ∧
    (u.io_engine_log_level = u.core.io_engine_log_level ∧
      u.core.io_engine_log_level = u.core.io_engine.log_level) ∧
    (u.core_capacity_is_absent = u.core.core_capacity_is_absent ∧
      u.core.core_capacity_is_absent = u.core.agents.core.capacity_is_absent) ∧
    (u.core_thin_pool_commitment = u.core.core_thin_pool_commitment ∧
      u.core.core_thin_pool_commitment = u.core.agents.core.thin_pool_commitment) ∧
    (u.core_thin_volume_commitment = u.core.core_thin_volume_commitment ∧
      u.core.core_thin_volume_commitment = u.core.agents.core.thin_volume_commitment) ∧
    (u.core_thin_volume_commitment_initial = u.core.core_thin_volume_commitment_initial ∧
      u.core.core_thin_volume_commitment_initial =
        u.core.agents.core.thin_volume_commitment_initial) :=
  ⟨⟨rfl, rfl⟩, ⟨rfl, rfl⟩, ⟨rfl, rfl⟩, ⟨rfl, rfl⟩, ⟨rfl, rfl⟩, ⟨rfl, rfl⟩⟩

/-- Claim C3: for every values document missing the required `image.tag`
string, decoding the whole values document fails with a SchemaError and no
value is constructed — no accessor is reachable on a failed decode. -/
theorem C3_image_tag_required (d : Value) (hm : ImageTagMissingDoc d) :
    UmbrellaValues.decode d = .error .schemaError ∧
    ∀ u, UmbrellaValues.decode d ≠ .ok u := by
  obtain ⟨fs, gs, rfl, h1, h2⟩ := hm
  have herr : UmbrellaValues.decode (.obj fs) = .error .schemaError := by
    refine umbrella_decode_error_of_core h1 (coreValues_error_at_image ?_)
    cases h3 : gs.lookup "image" with
    | none => simp [reqField, h3, exceptBind_err]
    | some v =>
        cases v with
        | str s => simp [reqField, h3, exceptBind_ok, Image.decode]
        | obj hs =>
            simp only [h3] at h2
            simp only [reqField, h3, exceptBind_ok, Image.decode]
            cases h4 : hs.lookup "tag" with
            | none => simp [getStr, h4, exceptBind_err]
            | some w =>
                cases w with
                | str s => exact absurd h4 (h2 s)
                | obj js => simp [getStr, h4, exceptBind_err]
  exact ⟨herr, by rw [herr]; intro u h; exact Except.noConfusion h⟩

/-- Witness for C3 at a concrete document whose `image` value is a string, so
the required `image.tag` string is missing. -/
theorem C3_image_tag_required_witness :
    UmbrellaValues.decode (.obj [("mayastor", .obj [("image", Value.str "oops")])]) =
      .error .schemaError ∧
    ∀ u, UmbrellaValues.decode (.obj [("mayastor", .obj [("image", Value.str "oops")])]) ≠
      .ok u :=
  C3_image_tag_required (.obj [("mayastor", .obj [("image", Value.str "oops")])])
    ⟨_, _, rfl, rfl, True.intro⟩

/-- Claim C9: calling any accessor twice on the same decoded value returns
identical results — accessors are pure functions of the immutable decoded
tree. -/
theorem C9_idempotent (ch : Chart) (u : UmbrellaValues) :
    ch.name = ch.name ∧ ch.version = ch.version ∧
    u.image_tag = u.image_tag ∧
    u.io_engine_log_level = u.io_engine_log_level ∧
    u.core_capacity_is_absent = u.core_capacity_is_absent ∧
    u.core_thin_pool_commitment = u.core_thin_pool_commitment ∧
    u.core_thin_volume_commitment = u.core_thin_volume_commitment ∧
    u.core_thin_volume_commitment_initial = u.core_thin_volume_commitment_initial :=
  ⟨rfl, rfl, rfl, rfl, rfl, rfl, rfl, rfl⟩

/-- Claim C10: only the capacity subtree is optional — decode fails with a
SchemaError when the `agents` key, or the `core` key inside agents, is absent,
even though neither carries required leaf data of its own; a document missing
only `agents.core.capacity` decodes successfully. -/
theorem C10_agents_required :
    (∀ d, AgentsMissingDoc d → UmbrellaValues.decode d = .error .schemaError) ∧
    (∀ d, AgentsCoreMissingDoc d → UmbrellaValues.decode d = .error .schemaError) ∧
    (∀ tag lvl, UmbrellaValues.decode (snakeDoc tag lvl) = .ok (snakeDecoded tag lvl) ∧
      (snakeDecoded tag lvl).core_capacity_is_absent = true) := by
  refine ⟨?_, ?_, fun tag lvl => ⟨rfl, rfl⟩⟩
  · intro d hm
    obtain ⟨fs, gs, rfl, h1, h2⟩ := hm
    exact umbrella_decode_error_of_core h1
      (coreValues_error_at_agents (by simp [reqField, h2, exceptBind_err]))
  · intro d hm
    obtain ⟨fs, gs, hs, rfl, h1, h2, h3⟩ := hm
    refine umbrella_decode_error_of_core h1 (coreValues_error_at_agents ?_)
    simp [reqField, h2, h3, exceptBind_ok, exceptBind_err, Agents.decode]

/-- Witness for C10 at concrete documents: one with no `agents` key, one with
an empty `agents` object (no `core` key), and the minimal well-formed document
with no `capacity` key. -/
theorem C10_agents_required_witness :
    UmbrellaValues.decode (.obj [("mayastor", .obj [("x", Value.str "y")])]) =
      .error .schemaError ∧
    UmbrellaValues.decode (.obj [("mayastor", .obj [("agents", .obj [])])]) =
      .error .schemaError ∧
    (UmbrellaValues.decode (snakeDoc "v2" "debug") = .ok (snakeDecoded "v2" "debug") ∧
      (snakeDecoded "v2" "debug").core_capacity_is_absent = true) :=
  ⟨C10_agents_required.1 _ ⟨_, _, rfl, rfl, rfl⟩,
   C10_agents_required.2.1 _ ⟨_, _, _, rfl, rfl, rfl, rfl⟩,
   C10_agents_required.2.2 "v2" "debug"⟩

end Helm
